import Mathlib

/-!
Verification of the DataLoader (fetch.js) and recent-classes storage
(storage.js) of the wdd231 fitness site, as a shallow embedding in Lean.

JSON values are modelled by an inductive `Json`; a network attempt's
observable outcome by `Response`; the retry wrapper threads an attempt
index into the effectful closure and records the backoff delays it waits.
-/

namespace Wdd231

/-- Parsed JSON values, as produced by response.json(). -/
inductive Json where
  | null : Json
  | bool (b : Bool) : Json
  | num (n : Int) : Json
  | str (s : String) : Json
  | arr (elems : List Json) : Json
  | obj (fields : List (String × Json)) : Json

/-- Configuration object of fetch.js (lines 10-15). -/
structure Config where
  dataPath : String
  maxRetries : Nat
  retryDelay : Nat
  timeout : Nat

def CONFIG : Config :=
  { dataPath := "data/classes.json", maxRetries := 3, retryDelay := 1000, timeout := 5000 }

/-- MAX_RECENT_ITEMS of storage.js (line 16). -/
def MAX_RECENT_ITEMS : Nat := 10

/-- JS String.prototype.trim: strip leading and trailing whitespace,
modelled over the character list of the string. -/
def jsTrim (s : String) : String :=
  ⟨(((s.data.dropWhile Char.isWhitespace).reverse.dropWhile Char.isWhitespace).reverse)⟩

/-- JS String.prototype.toLowerCase, modelled character by character. -/
def jsToLower (s : String) : String := ⟨s.data.map Char.toLower⟩

/-- The needle occurs as a substring iff it is a prefix of some suffix. -/
def includesAux (sub : List Char) : List Char → Bool
  | [] => sub.isEmpty
  | c :: cs => sub.isPrefixOf (c :: cs) || includesAux sub cs

/-- JS String.prototype.includes: substring occurrence test. -/
def includes (s sub : String) : Bool := includesAux sub.data s.data

/-- Errors thrown inside the fetch pipeline of getClasses (fetch.js). -/
inductive FetchError where
  | abortError : FetchError
  | httpError (status : Nat) : FetchError
  | invalidContentType : FetchError
  | jsonSyntaxError : FetchError
  | notArray : FetchError
  | noValidClasses : FetchError

/-- Observable outcome of one fetchWithTimeout attempt: either the abort
timer fired first, or a reply arrived carrying a status code, an optional
content-type header, and a body (`none` models a JSON parse failure). -/
inductive Response where
  | timeout : Response
  | reply (status : Nat) (contentType : Option String) (body : Option Json) : Response

/-- response.ok: status in the 2xx range. -/
def respOk (status : Nat) : Bool := decide (200 ≤ status) && decide (status ≤ 299)

/-- The content-type check of getClasses lines 136-139:
falsy header or one not containing "application/json" fails. -/
def hasJsonType (contentType : Option String) : Bool :=
  match contentType with
  | none => false
  | some c => includes c "application/json"

def requiredFields : List String := ["name", "type", "duration", "level", "trainer"]

/-- Assoc-list field lookup, modelling JS property access on a parsed object. -/
def lookupField (fields : List (String × Json)) (field : String) : Option Json :=
  (fields.find? (fun p => p.1 == field)).map (fun p => p.2)

/-- isValidClass (fetch.js lines 79-91): the value is an object having every
required field as a string whose trim is non-empty. Non-objects (null,
scalars; also arrays, which lack the required string fields) fail. -/
def isValidClass (classData : Json) : Bool :=
  match classData with
  | .obj fields =>
    requiredFields.all (fun field =>
      match lookupField fields field with
      | some (.str s) => !(jsTrim s == "")
      | _ => false)
  | _ => false

/-- validateClasses (fetch.js lines 98-114): throw unless the data is an
array; filter by isValidClass; throw if no element survived. -/
def validateClasses (classes : Json) : Except FetchError (List Json) :=
  match classes with
  | .arr cs =>
    let validClasses := cs.filter isValidClass
    if validClasses.length = 0 then .error .noValidClasses
    else .ok validClasses
  | _ => .error .notArray

/-- The async closure passed to retry by getClasses (fetch.js lines 127-146):
timeout aborts; non-ok status throws; missing or non-JSON content type throws;
unparsable body throws; otherwise validateClasses on the parsed body. -/
def attemptOnce (r : Response) : Except FetchError (List Json) :=
  match r with
  | .timeout => .error .abortError
  | .reply status contentType body =>
    if respOk status = false then .error (.httpError status)
    else if hasJsonType contentType = false then .error .invalidContentType
    else
      match body with
      | none => .error .jsonSyntaxError
      | some j => validateClasses j

/-- retry (fetch.js lines 54-68). The effectful fn is modelled as a map from
attempt index to outcome; alongside the final result we return the list of
backoff delays waited, in order. On failure with retries left the code
waits `delay`, then recurses with retries-1 and delay*2. -/
def retry {E A : Type} (f : Nat → Except E A) : Nat → Nat → Nat → Except E A × List Nat
  | retries, delay, i =>
    match f i with
    | .ok a => (.ok a, [])
    | .error e =>
      match retries with
      | 0 => (.error e, [])
      | r + 1 =>
        let p := retry f r (delay * 2) (i + 1)
        (p.1, delay :: p.2)

/-- getClasses (fetch.js lines 124-168): run the attempt under retry with
CONFIG.maxRetries and CONFIG.retryDelay; on success return the validated
data, on any error return the empty array. The environment is the map from
attempt index to that attempt's Response. -/
def getClasses (resp : Nat → Response) : List Json × List Nat :=
  match retry (fun i => attemptOnce (resp i)) CONFIG.maxRetries CONFIG.retryDelay 0 with
  | (.ok data, ds) => (data, ds)
  | (.error _, ds) => ([], ds)

/-- JS falsiness of an optional string argument: absent (undefined/null) or
the empty string. -/
def jsFalsy (s : Option String) : Bool := s.isNone || s == some ""

/-- classData.field as used by the filter utilities, which are only ever
applied to validated records, where every required field is a string; on a
record lacking the field the source would throw a TypeError, a case the
theorems below never reach (they use only the identity branch or validated
records). -/
def jstr (classData : Json) (field : String) : String :=
  match classData with
  | .obj fields =>
    match lookupField fields field with
    | some (.str s) => s
    | _ => ""
  | _ => ""

/-- filterByType (fetch.js lines 180-188). -/
def filterByType (classes : List Json) (type : Option String) : List Json :=
  if jsFalsy type || type == some "all" then classes
  else classes.filter (fun classData =>
    jsToLower (jstr classData "type") == jsToLower (type.getD ""))

/-- filterByLevel (fetch.js lines 196-204). -/
def filterByLevel (classes : List Json) (level : Option String) : List Json :=
  if jsFalsy level || level == some "all" then classes
  else classes.filter (fun classData =>
    jsToLower (jstr classData "level") == jsToLower (level.getD ""))

/-- filterByTrainer (fetch.js lines 212-220). -/
def filterByTrainer (classes : List Json) (trainer : Option String) : List Json :=
  if jsFalsy trainer || trainer == some "all" then classes
  else classes.filter (fun classData =>
    jsToLower (jstr classData "trainer") == jsToLower (trainer.getD ""))

/-- searchClasses (fetch.js lines 228-240). -/
def searchClasses (classes : List Json) (query : Option String) : List Json :=
  if jsFalsy query || jsTrim (query.getD "") == "" then classes
  else
    let searchTerm := jsTrim (jsToLower (query.getD ""))
    classes.filter (fun classData =>
      includes (jsToLower (jstr classData "name")) searchTerm ||
      includes (jsToLower (jstr classData "type")) searchTerm ||
      includes (jsToLower (jstr classData "trainer")) searchTerm)

/-- addRecentClass (storage.js lines 221-240), as the pure transformation it
applies to the stored recent-classes list: on a falsy name it writes
nothing; otherwise it removes existing occurrences of the name, prepends
it, and truncates to MAX_RECENT_ITEMS when the result is longer. -/
def addRecentClass (className : String) (recent : List String) : List String :=
  if className = "" then recent
  else
    let filtered := recent.filter (fun item => item != className)
    let recent := className :: filtered
    if MAX_RECENT_ITEMS < recent.length then recent.take MAX_RECENT_ITEMS
    else recent

/-- The backoff-delay sequence of m retries starting at the given delay:
delay, delay*2, delay*4, ... -/
def delaysList (m delay : Nat) : List Nat :=
  (List.range m).map (fun j => delay * 2 ^ j)

/-- Array.isArray on a parsed JSON value. -/
def isArray (j : Json) : Bool :=
  match j with
  | .arr _ => true
  | _ => false

/-- A record satisfying the Record shape. -/
def sampleClass : Json :=
  .obj [("name", .str "Yoga Flow"), ("type", .str "yoga"), ("duration", .str "60 min"),
        ("level", .str "beginner"), ("trainer", .str "Ana")]

/-- A record failing the Record shape (missing required fields). -/
def invalidClass : Json := .obj [("name", .str "Mystery")]

def jsonHeader : Option String := some "application/json"

/-- Environment whose every attempt yields an ok JSON reply with an object body. -/
def respC1 : Nat → Response := fun _ => .reply 200 jsonHeader (some (.obj []))

/-- Environment whose every attempt yields an array body with no valid element. -/
def respC2 : Nat → Response := fun _ => .reply 200 jsonHeader (some (.arr [invalidClass]))

/-- Environment whose every attempt times out. -/
def respC3 : Nat → Response := fun _ => .timeout

/-- Environment yielding a singleton array of one valid record. -/
def respC4 : Nat → Response := fun _ => .reply 200 jsonHeader (some (.arr [sampleClass]))

/-- Environment yielding a two-element array with exactly one valid record. -/
def respC5 : Nat → Response := fun _ => .reply 200 jsonHeader (some (.arr [sampleClass, invalidClass]))

/-- Environment whose every attempt yields a 500 status. -/
def respC7 : Nat → Response := fun _ => .reply 500 jsonHeader (some (.arr [sampleClass]))

/-- Environment yielding an ok JSON reply whose body is the empty array. -/
def respC8e : Nat → Response := fun _ => .reply 200 jsonHeader (some (.arr []))

/-- Environment yielding an ok JSON reply whose body is a non-empty all-valid array. -/
def respC8 : Nat → Response := fun _ => .reply 200 jsonHeader (some (.arr [sampleClass]))

/-- An attempt function that fails on every call. -/
def alwaysFail : Nat → Except Unit Unit := fun _ => .error ()

theorem retry_ok {E A : Type} (f : Nat → Except E A) (retries delay i : Nat) (a : A)
    (h : f i = .ok a) : retry f retries delay i = (.ok a, []) := by
  rw [retry, h]

theorem retry_err_zero {E A : Type} (f : Nat → Except E A) (delay i : Nat) (e : E)
    (h : f i = .error e) : retry f 0 delay i = (.error e, []) := by
  rw [retry, h]

theorem retry_err_succ {E A : Type} (f : Nat → Except E A) (r delay i : Nat) (e : E)
    (h : f i = .error e) :
    retry f (r + 1) delay i =
      ((retry f r (delay * 2) (i + 1)).1, delay :: (retry f r (delay * 2) (i + 1)).2) := by
  rw [retry, h]

theorem delaysList_succ (m d : Nat) : delaysList (m + 1) d = d :: delaysList m (d * 2) := by
  unfold delaysList
  rw [List.range_succ_eq_map, List.map_cons, List.map_map]
  have hfun : ((fun j => d * 2 ^ j) ∘ Nat.succ) = fun j => d * 2 * 2 ^ j := by
    funext j
    simp [Function.comp, pow_succ]
    ring
  rw [hfun]
  simp

theorem delaysList_length (m d : Nat) : (delaysList m d).length = m := by
  simp [delaysList]

theorem delaysList_getD (m d j : Nat) (hj : j < m) :
    (delaysList m d).getD j 0 = d * 2 ^ j := by
  unfold delaysList
  rw [List.getD_eq_getElem?_getD, List.getElem?_map, List.getElem?_range hj]
  rfl

theorem retry_delays_shape {E A : Type} (f : Nat → Except E A) :
    ∀ (retries delay i : Nat), ∃ m, (retry f retries delay i).2 = delaysList m delay := by
  intro retries
  induction retries with
  | zero =>
    intro delay i
    cases hf : f i with
    | ok a => exact ⟨0, by rw [retry_ok f 0 delay i a hf]; rfl⟩
    | error e => exact ⟨0, by rw [retry_err_zero f delay i e hf]; rfl⟩
  | succ r ih =>
    intro delay i
    cases hf : f i with
    | ok a => exact ⟨0, by rw [retry_ok f (r + 1) delay i a hf]; rfl⟩
    | error e =>
      obtain ⟨m, hm⟩ := ih (delay * 2) (i + 1)
      refine ⟨m + 1, ?_⟩
      rw [retry_err_succ f r delay i e hf]
      show delay :: (retry f r (delay * 2) (i + 1)).2 = delaysList (m + 1) delay
      rw [hm, delaysList_succ]

theorem retry_all_err {E A : Type} (f : Nat → Except E A) (h : ∀ j, ∃ e, f j = .error e) :
    ∀ (retries delay i : Nat),
      ∃ e, retry f retries delay i = (.error e, delaysList retries delay) := by
  intro retries
  induction retries with
  | zero =>
    intro delay i
    obtain ⟨e, he⟩ := h i
    exact ⟨e, by rw [retry_err_zero f delay i e he]; rfl⟩
  | succ r ih =>
    intro delay i
    obtain ⟨e, he⟩ := h i
    obtain ⟨e2, he2⟩ := ih (delay * 2) (i + 1)
    refine ⟨e2, ?_⟩
    rw [retry_err_succ f r delay i e he, he2, delaysList_succ]

theorem retry_ok_src {E A : Type} (f : Nat → Except E A) :
    ∀ (retries delay i : Nat) (a : A),
      (retry f retries delay i).1 = .ok a → ∃ j, f j = .ok a := by
  intro retries
  induction retries with
  | zero =>
    intro delay i a h
    cases hf : f i with
    | ok b =>
      rw [retry_ok f 0 delay i b hf] at h
      simp at h
      exact ⟨i, by rw [hf, h]⟩
    | error e =>
      rw [retry_err_zero f delay i e hf] at h
      simp at h
  | succ r ih =>
    intro delay i a h
    cases hf : f i with
    | ok b =>
      rw [retry_ok f (r + 1) delay i b hf] at h
      simp at h
      exact ⟨i, by rw [hf, h]⟩
    | error e =>
      rw [retry_err_succ f r delay i e hf] at h
      exact ih (delay * 2) (i + 1) a h

theorem validateClasses_not_array {j : Json} (h : isArray j = false) :
    validateClasses j = .error .notArray := by
  cases j with
  | arr es => simp [isArray] at h
  | null => rfl
  | bool b => rfl
  | num n => rfl
  | str s => rfl
  | obj fs => rfl

theorem validateClasses_ok_shape (j : Json) (l : List Json)
    (h : validateClasses j = .ok l) : ∃ xs : List Json, l = List.filter isValidClass xs := by
  cases j with
  | arr cs =>
    simp only [validateClasses] at h
    by_cases h0 : (cs.filter isValidClass).length = 0
    · rw [if_pos h0] at h
      simp at h
    · rw [if_neg h0] at h
      simp at h
      exact ⟨cs, h.symm⟩
  | null => simp [validateClasses] at h
  | bool b => simp [validateClasses] at h
  | num n => simp [validateClasses] at h
  | str s => simp [validateClasses] at h
  | obj fs => simp [validateClasses] at h

theorem attemptOnce_ok_shape (r : Response) (l : List Json)
    (h : attemptOnce r = .ok l) : ∃ xs : List Json, l = List.filter isValidClass xs := by
  cases r with
  | timeout => simp [attemptOnce] at h
  | reply st ct bd =>
    simp only [attemptOnce] at h
    by_cases h1 : respOk st = false
    · rw [if_pos h1] at h
      simp at h
    · rw [if_neg h1] at h
      by_cases h2 : hasJsonType ct = false
      · rw [if_pos h2] at h
        simp at h
      · rw [if_neg h2] at h
        cases bd with
        | none => simp at h
        | some j => exact validateClasses_ok_shape j l h

theorem getClasses_first_ok (resp : Nat → Response) (l : List Json)
    (h : attemptOnce (resp 0) = .ok l) : getClasses resp = (l, []) := by
  unfold getClasses
  rw [retry_ok (fun i => attemptOnce (resp i)) CONFIG.maxRetries CONFIG.retryDelay 0 l h]

/-- C3: getClasses never raises an error to its caller: whenever the
retry-wrapped fetch pipeline ends in an error of any kind, the caller
receives the empty Collection rather than that error. -/
theorem claim_C3 (resp : Nat → Response) (e : FetchError)
    (h : (retry (fun i => attemptOnce (resp i)) CONFIG.maxRetries CONFIG.retryDelay 0).1
      = .error e) :
    (getClasses resp).1 = [] := by
  unfold getClasses
  cases hr : retry (fun i => attemptOnce (resp i)) CONFIG.maxRetries CONFIG.retryDelay 0 with
  | mk res ds =>
    rw [hr] at h
    cases res with
    | ok a => simp at h
    | error e2 => rfl

/-- C3 witness: at the always-timeout environment the pipeline ends in an
abort error and the caller receives the empty Collection. -/
theorem claim_C3_witness :
    (retry (fun i => attemptOnce (respC3 i)) CONFIG.maxRetries CONFIG.retryDelay 0).1
      = .error .abortError ∧
    (getClasses respC3).1 = [] :=
  ⟨rfl, claim_C3 respC3 .abortError rfl⟩

/-- C4: every element of the Collection returned by getClasses satisfies
the Record shape (isValidClass): no partially-formed record ever appears
in the result. -/
theorem claim_C4 (resp : Nat → Response) (x : Json)
    (hx : x ∈ (getClasses resp).1) : isValidClass x = true := by
  unfold getClasses at hx
  cases hr : retry (fun i => attemptOnce (resp i)) CONFIG.maxRetries CONFIG.retryDelay 0 with
  | mk res ds =>
    rw [hr] at hx
    cases res with
    | ok data =>
      have h1 : (retry (fun i => attemptOnce (resp i)) CONFIG.maxRetries CONFIG.retryDelay 0).1
          = .ok data := by rw [hr]
      obtain ⟨j, hj⟩ :=
        retry_ok_src (fun i => attemptOnce (resp i)) CONFIG.maxRetries CONFIG.retryDelay 0 data h1
      obtain ⟨xs, hxs⟩ := attemptOnce_ok_shape (resp j) data hj
      have hx2 : x ∈ data := by simpa using hx
      rw [hxs] at hx2
      exact (List.mem_filter.mp hx2).2
    | error e => simp at hx

/-- C4 witness: the sample record is in the result of a successful load and
satisfies the Record shape. -/
theorem claim_C4_witness :
    sampleClass ∈ (getClasses respC4).1 ∧ isValidClass sampleClass = true := by
  have hm : sampleClass ∈ (getClasses respC4).1 := by
    have hval : getClasses respC4 = ([sampleClass], []) := rfl
    rw [hval]
    exact List.mem_singleton.mpr rfl
  exact ⟨hm, claim_C4 respC4 sampleClass hm⟩

/-- C6: in any run of the retry loop that performs at least two retries,
the first recorded backoff delay equals the initial delay and each
subsequent delay is exactly double the previous one. -/
theorem claim_C6 {E A : Type} (f : Nat → Except E A) (retries delay i : Nat)
    (h2 : 2 ≤ ((retry f retries delay i).2).length) :
    ((retry f retries delay i).2).getD 0 0 = delay ∧
    ∀ j, j + 1 < ((retry f retries delay i).2).length →
      ((retry f retries delay i).2).getD (j + 1) 0 =
        2 * ((retry f retries delay i).2).getD j 0 := by
  obtain ⟨m, hm⟩ := retry_delays_shape f retries delay i
  rw [hm] at h2 ⊢
  rw [delaysList_length] at h2
  constructor
  · rw [delaysList_getD m delay 0 (by omega)]
    simp
  · intro j hj
    rw [delaysList_length] at hj
    rw [delaysList_getD m delay (j + 1) hj, delaysList_getD m delay j (by omega)]
    ring

/-- C6 witness: a run with three retries starting at 1000 waits 1000 first
and then double that. -/
theorem claim_C6_witness :
    2 ≤ ((retry alwaysFail 3 1000 0).2).length ∧
    ((retry alwaysFail 3 1000 0).2).getD 0 0 = 1000 ∧
    ((retry alwaysFail 3 1000 0).2).getD 1 0 = 2 * ((retry alwaysFail 3 1000 0).2).getD 0 0 := by
  have h := claim_C6 alwaysFail 3 1000 0 (by decide)
  exact ⟨by decide, h.1, h.2 0 (by decide)⟩

/-- C1 counterexample: with every attempt returning ok JSON whose parsed
body is the object {} (not a sequence), getClasses does return the empty
Collection, but only after three retries with backoff waits — refuting
"without performing any retry attempt". -/
theorem claim_C1_counterexample :
    (∀ xs : List Json, Json.obj [] ≠ Json.arr xs) ∧
    getClasses respC1 = ([], [1000, 2000, 4000]) ∧
    (getClasses respC1).2 ≠ [] :=
  ⟨fun _ hc => Json.noConfusion hc, rfl, by decide⟩

/-- C1 (amended): for every environment whose every attempt succeeds with
JSON content parsing to a non-sequence body, getClasses returns the empty
Collection after retrying maxRetries times with backoff delays 1000, 2000,
4000 — the not-an-array error is thrown inside the retry wrapper and is
retried like any other failure. -/
theorem claim_C1 (resp : Nat → Response)
    (h : ∀ i, ∃ st ct j, resp i = .reply st ct (some j) ∧ respOk st = true ∧
      hasJsonType ct = true ∧ isArray j = false) :
    getClasses resp = ([], [1000, 2000, 4000]) := by
  have herr : ∀ i, ∃ e, attemptOnce (resp i) = .error e := by
    intro i
    obtain ⟨st, ct, j, hr, hok, hct, harr⟩ := h i
    refine ⟨.notArray, ?_⟩
    rw [hr]
    simp only [attemptOnce]
    rw [if_neg (by simp [hok]), if_neg (by simp [hct])]
    exact validateClasses_not_array harr
  obtain ⟨e, he⟩ :=
    retry_all_err (fun i => attemptOnce (resp i)) herr CONFIG.maxRetries CONFIG.retryDelay 0
  unfold getClasses
  rw [he]
  rfl

/-- C1 witness: the constant object-body environment satisfies the
hypothesis and yields the retried empty result. -/
theorem claim_C1_witness :
    (∀ i, ∃ st ct j, respC1 i = .reply st ct (some j) ∧ respOk st = true ∧
      hasJsonType ct = true ∧ isArray j = false) ∧
    getClasses respC1 = ([], [1000, 2000, 4000]) := by
  have hh : ∀ i, ∃ st ct j, respC1 i = .reply st ct (some j) ∧ respOk st = true ∧
      hasJsonType ct = true ∧ isArray j = false :=
    fun _ => ⟨200, jsonHeader, .obj [], rfl, rfl, rfl, rfl⟩
  exact ⟨hh, claim_C1 respC1 hh⟩

/-- C2 counterexample: with every attempt returning an array body whose
single element fails the Record shape, getClasses does return the empty
Collection, but only after three retries with backoff waits — refuting
"without performing any retry attempt". -/
theorem claim_C2_counterexample :
    List.filter isValidClass [invalidClass] = [] ∧
    getClasses respC2 = ([], [1000, 2000, 4000]) ∧
    (getClasses respC2).2 ≠ [] :=
  ⟨rfl, rfl, by decide⟩

/-- C2 (amended): for every environment whose every attempt succeeds with
JSON content parsing to a sequence with zero valid elements, getClasses
returns the empty Collection after retrying maxRetries times with backoff
delays 1000, 2000, 4000 — the no-valid-classes error is thrown inside the
retry wrapper and is retried like any other failure. -/
theorem claim_C2 (resp : Nat → Response)
    (h : ∀ i, ∃ st ct xs, resp i = .reply st ct (some (.arr xs)) ∧ respOk st = true ∧
      hasJsonType ct = true ∧ List.filter isValidClass xs = []) :
    getClasses resp = ([], [1000, 2000, 4000]) := by
  have herr : ∀ i, ∃ e, attemptOnce (resp i) = .error e := by
    intro i
    obtain ⟨st, ct, xs, hr, hok, hct, hfil⟩ := h i
    refine ⟨.noValidClasses, ?_⟩
    rw [hr]
    simp only [attemptOnce]
    rw [if_neg (by simp [hok]), if_neg (by simp [hct])]
    show validateClasses (.arr xs) = .error .noValidClasses
    simp only [validateClasses]
    rw [if_pos (by rw [hfil]; rfl)]
  obtain ⟨e, he⟩ :=
    retry_all_err (fun i => attemptOnce (resp i)) herr CONFIG.maxRetries CONFIG.retryDelay 0
  unfold getClasses
  rw [he]
  rfl

/-- C2 witness: the constant invalid-array environment satisfies the
hypothesis and yields the retried empty result. -/
theorem claim_C2_witness :
    (∀ i, ∃ st ct xs, respC2 i = .reply st ct (some (.arr xs)) ∧ respOk st = true ∧
      hasJsonType ct = true ∧ List.filter isValidClass xs = []) ∧
    getClasses respC2 = ([], [1000, 2000, 4000]) := by
  have hh : ∀ i, ∃ st ct xs, respC2 i = .reply st ct (some (.arr xs)) ∧ respOk st = true ∧
      hasJsonType ct = true ∧ List.filter isValidClass xs = [] :=
    fun _ => ⟨200, jsonHeader, [invalidClass], rfl, rfl, rfl, rfl⟩
  exact ⟨hh, claim_C2 respC2 hh⟩

/-- C5: when the first attempt succeeds with an array body of which some
but not all elements are valid, getClasses returns exactly the valid
elements in original relative order (the filtered sublist) and performs no
retry (the recorded delay list is empty). -/
theorem claim_C5 (resp : Nat → Response) (st : Nat) (ct : Option String) (xs : List Json)
    (hr : resp 0 = .reply st ct (some (.arr xs)))
    (hok : respOk st = true) (hct : hasJsonType ct = true)
    (hk : 0 < (List.filter isValidClass xs).length)
    (hkn : (List.filter isValidClass xs).length < xs.length) :
    getClasses resp = (List.filter isValidClass xs, []) := by
  apply getClasses_first_ok
  rw [hr]
  simp only [attemptOnce]
  rw [if_neg (by simp [hok]), if_neg (by simp [hct])]
  show validateClasses (.arr xs) = .ok (List.filter isValidClass xs)
  simp only [validateClasses]
  rw [if_neg (by omega)]

/-- C5 witness: a two-element body with exactly one valid record loads to
just that record with no retry. -/
theorem claim_C5_witness :
    respC5 0 = .reply 200 jsonHeader (some (.arr [sampleClass, invalidClass])) ∧
    0 < (List.filter isValidClass [sampleClass, invalidClass]).length ∧
    (List.filter isValidClass [sampleClass, invalidClass]).length
      < ([sampleClass, invalidClass] : List Json).length ∧
    getClasses respC5 = (List.filter isValidClass [sampleClass, invalidClass], []) := by
  refine ⟨rfl, by decide, by decide, ?_⟩
  exact claim_C5 respC5 200 jsonHeader [sampleClass, invalidClass] rfl rfl rfl
    (by decide) (by decide)

/-- C7: when every attempt fails retryably — a timeout or a non-2xx
status — getClasses performs exactly maxRetries additional attempts after
the first failed one (one recorded backoff delay per additional attempt)
and then returns the empty Collection. -/
theorem claim_C7 (resp : Nat → Response)
    (h : ∀ i, resp i = .timeout ∨ ∃ st ct bd, resp i = .reply st ct bd ∧ respOk st = false) :
    getClasses resp = ([], [1000, 2000, 4000]) ∧
    ((getClasses resp).2).length = CONFIG.maxRetries := by
  have herr : ∀ i, ∃ e, attemptOnce (resp i) = .error e := by
    intro i
    rcases h i with ht | ⟨st, ct, bd, hr, hok⟩
    · exact ⟨.abortError, by rw [ht]; rfl⟩
    · refine ⟨.httpError st, ?_⟩
      rw [hr]
      simp only [attemptOnce]
      rw [if_pos hok]
  obtain ⟨e, he⟩ :=
    retry_all_err (fun i => attemptOnce (resp i)) herr CONFIG.maxRetries CONFIG.retryDelay 0
  have hg : getClasses resp = ([], [1000, 2000, 4000]) := by
    unfold getClasses
    rw [he]
    rfl
  exact ⟨hg, by rw [hg]; rfl⟩

/-- C7 witness: the constant 500-status environment exhausts the three
retries and yields the empty Collection. -/
theorem claim_C7_witness :
    (∀ i, respC7 i = .timeout ∨ ∃ st ct bd, respC7 i = .reply st ct bd ∧ respOk st = false) ∧
    getClasses respC7 = ([], [1000, 2000, 4000]) := by
  have hh : ∀ i, respC7 i = .timeout ∨
      ∃ st ct bd, respC7 i = .reply st ct bd ∧ respOk st = false :=
    fun _ => Or.inr ⟨500, jsonHeader, some (.arr [sampleClass]), rfl, rfl⟩
  exact ⟨hh, (claim_C7 respC7 hh).1⟩

/-- C8 counterexample: the empty array body vacuously has every element
valid, yet getClasses does not complete in a single delay-free attempt: the
no-valid-classes error is retried three times with backoff waits. -/
theorem claim_C8_counterexample :
    (∀ x : Json, x ∈ ([] : List Json) → isValidClass x = true) ∧
    getClasses respC8e = ([], [1000, 2000, 4000]) ∧
    (getClasses respC8e).2 ≠ [] :=
  ⟨fun x hx => absurd hx (List.not_mem_nil x), rfl, by decide⟩

/-- C8 (amended): when the first attempt succeeds with JSON content whose
body is a non-empty sequence in which every element satisfies the Record
shape, getClasses returns that sequence unmodified in a single attempt
with no backoff delay. -/
theorem claim_C8 (resp : Nat → Response) (st : Nat) (ct : Option String) (xs : List Json)
    (hr : resp 0 = .reply st ct (some (.arr xs)))
    (hok : respOk st = true) (hct : hasJsonType ct = true)
    (hne : xs ≠ [])
    (hall : ∀ x ∈ xs, isValidClass x = true) :
    getClasses resp = (xs, []) := by
  have hfil : List.filter isValidClass xs = xs := List.filter_eq_self.mpr hall
  apply getClasses_first_ok
  rw [hr]
  simp only [attemptOnce]
  rw [if_neg (by simp [hok]), if_neg (by simp [hct])]
  show validateClasses (.arr xs) = .ok xs
  simp only [validateClasses]
  rw [hfil]
  rw [if_neg (by rw [List.length_eq_zero]; exact hne)]

/-- C8 witness: a singleton all-valid body loads unmodified with no retry. -/
theorem claim_C8_witness :
    respC8 0 = .reply 200 jsonHeader (some (.arr [sampleClass])) ∧
    ([sampleClass] : List Json) ≠ [] ∧
    (∀ x ∈ ([sampleClass] : List Json), isValidClass x = true) ∧
    getClasses respC8 = ([sampleClass], []) := by
  refine ⟨rfl, by simp, ?_, ?_⟩
  · intro x hx
    rw [List.mem_singleton.mp hx]
    rfl
  · exact claim_C8 respC8 200 jsonHeader [sampleClass] rfl rfl rfl (by simp)
      (fun x hx => by rw [List.mem_singleton.mp hx]; rfl)

/-- C9: filterByType, filterByLevel and filterByTrainer return the input
collection itself when the filter argument is absent, empty, or the string
"all", and searchClasses returns the input itself when the query is
absent, empty, or whitespace-only. -/
theorem claim_C9 (classes : List Json) :
    filterByType classes none = classes ∧
    filterByType classes (some "") = classes ∧
    filterByType classes (some "all") = classes ∧
    filterByLevel classes none = classes ∧
    filterByLevel classes (some "") = classes ∧
    filterByLevel classes (some "all") = classes ∧
    filterByTrainer classes none = classes ∧
    filterByTrainer classes (some "") = classes ∧
    filterByTrainer classes (some "all") = classes ∧
    searchClasses classes none = classes ∧
    searchClasses classes (some "") = classes ∧
    (∀ q : String, jsTrim q = "" → searchClasses classes (some q) = classes) := by
  refine ⟨rfl, rfl, rfl, rfl, rfl, rfl, rfl, rfl, rfl, rfl, rfl, ?_⟩
  intro q hq
  simp [searchClasses, hq]

/-- C9 witness: the identity branches instantiated on a one-record
collection, with a whitespace-only query for searchClasses. -/
theorem claim_C9_witness :
    jsTrim "  " = "" ∧
    filterByType [sampleClass] (some "all") = [sampleClass] ∧
    searchClasses [sampleClass] (some "  ") = [sampleClass] := by
  obtain ⟨-, -, h3, -, -, -, -, -, -, -, -, h12⟩ := claim_C9 [sampleClass]
  exact ⟨rfl, h3, h12 "  " rfl⟩

/-- C10: for every non-empty class name and every prior stored list, after
addRecentClass the stored list starts with that name and has length at
most MAX_RECENT_ITEMS; and if the prior list had no duplicates, neither
does the new one (the bound and uniqueness are preserved by every call). -/
theorem claim_C10 (className : String) (prior : List String) (h : className ≠ "") :
    (addRecentClass className prior).head? = some className ∧
    (addRecentClass className prior).length ≤ MAX_RECENT_ITEMS ∧
    (prior.Nodup → (addRecentClass className prior).Nodup) := by
  unfold addRecentClass
  rw [if_neg h]
  simp only [MAX_RECENT_ITEMS]
  have hnm : className ∉ prior.filter (fun item => item != className) := by
    intro hm
    have hp := (List.mem_filter.mp hm).2
    simp at hp
  by_cases hlen : 10 < (className :: prior.filter (fun item => item != className)).length
  · rw [if_pos hlen]
    refine ⟨?_, ?_, ?_⟩
    · rw [List.take_succ_cons]
      rfl
    · rw [List.length_take]
      omega
    · intro hnd
      refine (List.take_sublist _ _).nodup ?_
      exact List.nodup_cons.mpr ⟨hnm, hnd.filter _⟩
  · rw [if_neg hlen]
    refine ⟨rfl, by simp at hlen ⊢; omega, ?_⟩
    intro hnd
    exact List.nodup_cons.mpr ⟨hnm, hnd.filter _⟩

/-- C10 witness: adding "Yoga" to a three-element duplicate-free list that
already contains it moves it to the front, keeps the list duplicate-free,
and stays within the bound. -/
theorem claim_C10_witness :
    ("Yoga" : String) ≠ "" ∧
    (["HIIT", "Yoga", "Spin"] : List String).Nodup ∧
    (addRecentClass "Yoga" ["HIIT", "Yoga", "Spin"]).head? = some "Yoga" ∧
    (addRecentClass "Yoga" ["HIIT", "Yoga", "Spin"]).length ≤ MAX_RECENT_ITEMS ∧
    (addRecentClass "Yoga" ["HIIT", "Yoga", "Spin"]).Nodup := by
  have h := claim_C10 "Yoga" ["HIIT", "Yoga", "Spin"] (by decide)
  exact ⟨by decide, by decide, h.1, h.2.1, h.2.2 (by decide)⟩

end Wdd231

